import Mathlib

/-!
Verification development for the crazy-bridge game server.

The definitions below are a shallow embedding of the JavaScript source:
`GameManager` (round sequencing, bidding, card play, trick evaluation,
scoring, winner determination) and `RoomManager` (membership, host
promotion, game lifecycle on a room).  JavaScript `Map`s keyed by player
id are embedded as lists in insertion order; `Date.now()` timestamps are
passed in as explicit `now` arguments; thrown errors become an
`Option GameError` paired with the state the heap holds when the
exception propagates (the JS code copies the game state shallowly, so a
mutation performed before a throw is visible afterwards).
-/

/-- Card suit. -/
inductive Suit
  | hearts
  | diamonds
  | clubs
  | spades
deriving DecidableEq

/-- Card rank: the thirteen ranks named in the game rules. -/
inductive Rank
  | ace
  | seven
  | king
  | queen
  | jack
  | ten
  | nine
  | eight
  | six
  | five
  | four
  | three
  | two
deriving DecidableEq

/-- A playing card, as the `{suit, rank}` objects exchanged by the server. -/
structure Card where
  suit : Suit
  rank : Rank
deriving DecidableEq

/-- Modelled from the spec: the custom card ranking, documented in the
repository README as highest-to-lowest A, 7, K, Q, J, 10, 9, 8, 6, 5, 4,
3, 2.  Larger value means stronger card. -/
def rankValue : Rank → Nat
  | .ace => 13
  | .seven => 12
  | .king => 11
  | .queen => 10
  | .jack => 9
  | .ten => 8
  | .nine => 7
  | .eight => 6
  | .six => 5
  | .five => 4
  | .four => 3
  | .three => 2
  | .two => 1

/-- Phase tags of the game-session state machine (the JS code stores
these as strings). -/
inductive Phase
  | setup
  | bidding
  | playing
  | roundEnd
  | gameEnd
deriving DecidableEq

/-- One entry of the per-round history written by `processNextRound`. -/
structure RoundRecord where
  round : Nat
  cardsInRound : Nat
  bid : Int
  actualWins : Nat
  roundScore : Nat
deriving DecidableEq

/-- A seat in a game session, as built by `initializeGameState`. -/
structure GamePlayer where
  id : Nat
  name : String
  isHuman : Bool
  hand : List Card
  bid : Option Int
  actualWins : Nat
  totalScore : Nat
  isConnected : Bool
deriving DecidableEq

/-- The game-session state, as built by `initializeGameState`. -/
structure GameState where
  players : List GamePlayer
  currentRound : Nat
  totalRounds : Nat
  cardsPerRound : Nat
  trumpSuit : Option Suit
  trumpCard : Option Card
  phase : Phase
  currentPlayerIndex : Nat
  dealer : Nat
  currentTrick : List Card
  currentTrickPlayers : List Nat
  leadSuit : Option Suit
  trickWinner : Option Nat
  roundSequence : List Nat
  deck : List Card
  roundHistory : List (List RoundRecord)
deriving DecidableEq

/-- Errors thrown by the game-action handlers, one constructor per
`throw new Error(...)` site, plus `typeError` for the implicit JS
`TypeError` raised by reading a property of `undefined`. -/
inductive GameError
  | notInBiddingPhase
  | playerNotFound
  | alreadyBid
  | invalidBidAmount
  | notInPlayingPhase
  | notYourTurn
  | cardNotInHand
  | notRoundEnd
  | typeError
deriving DecidableEq

/-- `createRoundSequence`, decreasing loop: `for (i = startCards; i >= 1; i--)`. -/
def descLoop : Nat → List Nat
  | 0 => []
  | n + 1 => (n + 1) :: descLoop n

/-- Helper for the increasing loop of `createRoundSequence`: emits
`fuel` consecutive values starting at `i`. -/
def ascLoopAux : Nat → Nat → List Nat
  | 0, _ => []
  | fuel + 1, i => i :: ascLoopAux fuel (i + 1)

/-- `createRoundSequence`, increasing loop: `for (i = 2; i <= startCards; i++)`.
The loop runs while `i ≤ startCards`, i.e. exactly `startCards + 1 - i`
iterations from counter value `i`. -/
def ascLoop (startCards : Nat) (i : Nat) : List Nat :=
  ascLoopAux (startCards + 1 - i) i

/-- `GameManager.createRoundSequence`: pushes `startCards … 1` then `2 … startCards`. -/
def createRoundSequence (startCards : Nat) : List Nat :=
  descLoop startCards ++ ascLoop startCards 2

theorem descLoop_length (n : Nat) : (descLoop n).length = n := by
  induction n with
  | zero => rfl
  | succ n ih => simp [descLoop, ih]

theorem descLoop_get? (n : Nat) (i : Nat) (hi : i < n) :
    (descLoop n).get? i = some (n - i) := by
  induction n generalizing i with
  | zero => omega
  | succ n ih =>
    cases i with
    | zero => simp [descLoop]
    | succ i =>
      have hi' : i < n := by omega
      simp only [descLoop, List.get?_cons_succ]
      rw [ih i hi']
      congr 1
      omega

theorem ascLoopAux_length (fuel i : Nat) : (ascLoopAux fuel i).length = fuel := by
  induction fuel generalizing i with
  | zero => rfl
  | succ fuel ih => simp [ascLoopAux, ih]

theorem ascLoop_length (m i : Nat) : (ascLoop m i).length = m + 1 - i := by
  rw [ascLoop, ascLoopAux_length]

theorem ascLoopAux_get? (fuel i j : Nat) (hj : j < fuel) :
    (ascLoopAux fuel i).get? j = some (i + j) := by
  induction fuel generalizing i j with
  | zero => omega
  | succ fuel ih =>
    cases j with
    | zero => simp [ascLoopAux]
    | succ j =>
      simp only [ascLoopAux, List.get?_cons_succ]
      rw [ih (i + 1) j (by omega)]
      congr 1
      omega

theorem ascLoop_get? (m i j : Nat) (hj : i + j ≤ m) :
    (ascLoop m i).get? j = some (i + j) := by
  rw [ascLoop, ascLoopAux_get? (m + 1 - i) i j (by omega)]

/-- C7: for every configured round maximum m ≥ 1, the round-size sequence
built at game start has length 2m − 1, reads m − i at position i for
i < m (so it is strictly decreasing from m down to 1), and reads j + 2 at
position m + j for j < m − 1 (so it is strictly increasing from 2 back up
to m); for m = 10 it is [10,9,…,1,2,…,10] of length 19. -/
theorem createRoundSequence_spec :
    (∀ m, 1 ≤ m →
      (createRoundSequence m).length = 2 * m - 1
      ∧ (∀ i, i < m → (createRoundSequence m).get? i = some (m - i))
      ∧ (∀ j, j < m - 1 → (createRoundSequence m).get? (m + j) = some (j + 2)))
    ∧ createRoundSequence 10 =
        [10, 9, 8, 7, 6, 5, 4, 3, 2, 1, 2, 3, 4, 5, 6, 7, 8, 9, 10] := by
  constructor
  · intro m hm
    refine ⟨?_, ?_, ?_⟩
    · simp [createRoundSequence, descLoop_length, ascLoop_length]
      omega
    · intro i hi
      rw [createRoundSequence, List.get?_append]
      · exact descLoop_get? m i hi
      · rw [descLoop_length]; exact hi
    · intro j hj
      rw [createRoundSequence, List.get?_append_right]
      · rw [descLoop_length]
        have h2 : m + j - m = j := by omega
        rw [h2, ascLoop_get? m 2 j (by omega)]
        congr 1
        omega
      · rw [descLoop_length]; omega
  · rfl

/-- Witness for C7 at m = 10. -/
theorem createRoundSequence_spec_witness :
    (1 ≤ 10)
    ∧ ((createRoundSequence 10).length = 2 * 10 - 1
        ∧ (∀ i, i < 10 → (createRoundSequence 10).get? i = some (10 - i))
        ∧ (∀ j, j < 10 - 1 → (createRoundSequence 10).get? (10 + j) = some (j + 2))) :=
  ⟨by decide, createRoundSequence_spec.1 10 (by decide)⟩

/-- Room lifecycle tag stored in `room.gameState` (a string in the JS code). -/
inductive RoomState
  | waiting
  | playing
  | finished
deriving DecidableEq

/-- A room member, as built by `RoomManager.joinRoom`. -/
structure Member where
  id : Nat
  name : String
  isHost : Bool
  isReady : Bool
  isConnected : Bool
  joinedAt : Nat
  socketId : Nat
deriving DecidableEq

/-- Room settings, as built by `RoomManager.createRoom`. -/
structure RoomSettings where
  gameLength : Nat
  language : String
  autoStart : Bool
deriving DecidableEq

/-- Final results assembled by `GameManager.endGame`: the winning seat,
the final scores, and the number of rounds played (wall-clock duration is
not modelled). -/
structure GameResults where
  winnerId : Nat
  finalScores : List (Nat × Nat)
  totalRounds : Nat
deriving DecidableEq

/-- A room, as built by `RoomManager.createRoom`.  The JS `players` Map
keyed by player id is embedded as a list in insertion order; the
`gameData` object is split into the game-state payload and the results
object merged in by `RoomManager.endGame`. -/
structure Room where
  code : String
  hostId : Nat
  players : List Member
  maxPlayers : Nat
  gameState : RoomState
  gameData : Option GameState
  gameResults : Option GameResults
  createdAt : Nat
  lastActivity : Nat
  settings : RoomSettings
deriving DecidableEq

/-- JS `Array.prototype.findIndex`: index of the first element satisfying
the predicate, or none where JS returns -1. -/
def findIndex (p : α → Bool) : List α → Option Nat
  | [] => none
  | a :: l => if p a then some 0 else (findIndex p l).map (· + 1)

/-- In-place mutation of the element at an index (JS object mutation
through an array reference); out-of-range indices leave the list as is. -/
def modifyAt (l : List α) (i : Nat) (f : α → α) : List α :=
  match l, i with
  | [], _ => []
  | a :: t, 0 => f a :: t
  | a :: t, i + 1 => a :: modifyAt t i f

/-- In-place mutation of the first element satisfying a predicate (JS
`find` followed by mutation of the returned object). -/
def updateFirst (p : α → Bool) (f : α → α) : List α → List α
  | [] => []
  | a :: l => if p a then f a :: l else a :: updateFirst p f l

/-- `GameManager.initializeGameState`: seats are the room members in
order with empty hands, no bids, zero wins and scores; the round sequence
comes from `createRoundSequence` on the configured game length (defaulted
to 10 by `gameLength || 10` when the setting is 0/absent). -/
def initializeGameState (room : Room) : GameState :=
  { players := room.players.map (fun player =>
      { id := player.id
        name := player.name
        isHuman := true
        hand := []
        bid := none
        actualWins := 0
        totalScore := 0
        isConnected := player.isConnected })
    currentRound := 0
    totalRounds := (createRoundSequence
      (if room.settings.gameLength == 0 then 10 else room.settings.gameLength)).length
    cardsPerRound := (createRoundSequence
      (if room.settings.gameLength == 0 then 10 else room.settings.gameLength)).getD 0 0
    trumpSuit := none
    trumpCard := none
    phase := Phase.setup
    currentPlayerIndex := 0
    dealer := 0
    currentTrick := []
    currentTrickPlayers := []
    leadSuit := none
    trickWinner := none
    roundSequence := createRoundSequence
      (if room.settings.gameLength == 0 then 10 else room.settings.gameLength)
    deck := []
    roundHistory := [] }

/-- `GameManager.calculateScore`: `bid === actualWins ? 10 + actualWins : 0`. -/
def calculateScore (bid : Int) (actualWins : Nat) : Nat :=
  if bid = (actualWins : Int) then 10 + actualWins else 0

/-- `GameManager.calculateRoundScores`: adds each seat's round score
(`calculateScore(player.bid || 0, player.actualWins)`) to its total. -/
def calculateRoundScores (gs : GameState) : GameState :=
  { gs with players := gs.players.map (fun player =>
      { player with totalScore :=
          player.totalScore + calculateScore (player.bid.getD 0) player.actualWins }) }

/-- `GameManager.findTrickWinner`: the source is an explicit placeholder
(`// For now, return first player as placeholder`) returning `players[0]`,
`undefined` (here `none`) on an empty list. -/
def findTrickWinner (trick : List Card) (players : List Nat)
    (trumpSuit : Option Suit) (leadSuit : Option Suit) : Option Nat :=
  players.head?

/-- Modelled from the spec: the intended trick-winner rule the source
leaves unimplemented (the README rules: trump cards beat all other suits,
otherwise the highest card of the lead suit wins, under the custom
ranking `rankValue`).  The winner is the seat of the strongest trump card
if any trump was played, else the seat of the strongest lead-suit card;
the first such seat wins ties (duplicates cannot occur in a real deck). -/
def specTrickWinner (trick : List Card) (players : List Nat)
    (trumpSuit : Option Suit) (leadSuit : Option Suit) : Option Nat :=
  let pairs := players.zip trick
  let trumps := pairs.filter (fun pc => some pc.2.suit == trumpSuit)
  let pool := if trumps.isEmpty then pairs.filter (fun pc => some pc.2.suit == leadSuit) else trumps
  (pool.foldl (fun best pc =>
    match best with
    | none => some pc
    | some b => if rankValue pc.2.rank > rankValue b.2.rank then some pc else some b) none).map
    (fun pc => pc.1)

/-- `GameManager.processBid`: validates phase, seat existence, absence of
a previous bid and the bid range, then records the bid; when every seat
has bid, the phase becomes playing and the turn index is set to 0
(`// Start with first player`).  The returned state is the heap contents
when the function returns or throws. -/
def processBid (gs : GameState) (playerId : Nat) (bid : Int) :
    Option GameError × GameState :=
  if gs.phase ≠ Phase.bidding then (some GameError.notInBiddingPhase, gs)
  else
    match gs.players.find? (fun p => p.id == playerId) with
    | none => (some GameError.playerNotFound, gs)
    | some player =>
      if player.bid.isSome then (some GameError.alreadyBid, gs)
      else if bid < 0 ∨ (gs.cardsPerRound : Int) < bid then (some GameError.invalidBidAmount, gs)
      else
        let players1 := updateFirst (fun p => p.id == playerId)
          (fun p => { p with bid := some bid }) gs.players
        if players1.all (fun p => p.bid.isSome) then
          (none, { gs with players := players1, phase := Phase.playing, currentPlayerIndex := 0 })
        else
          (none, { gs with players := players1 })

/-- `GameManager.processCardPlay`: validates phase, turn and card
membership in the hand, removes the card, appends it to the trick, sets
the lead suit on the first card, and on a full trick resolves the winner
via `findTrickWinner`, increments the winner's tricks, and either ends
the round (all of seat 0's cards gone) or starts the next trick with the
winner.  `typeError` marks the implicit JS `TypeError` paths (indexing
past the seats array, winner id not found); the state paired with an
error is the heap contents at the throw, after any mutations already
performed. -/
def processCardPlay (gs : GameState) (playerId : Nat) (card : Card) :
    Option GameError × GameState :=
  if gs.phase ≠ Phase.playing then (some GameError.notInPlayingPhase, gs)
  else
    match gs.players.get? gs.currentPlayerIndex with
    | none => (some GameError.typeError, gs)
    | some currentPlayer =>
      if currentPlayer.id ≠ playerId then (some GameError.notYourTurn, gs)
      else
        match findIndex (fun c => c.suit == card.suit && c.rank == card.rank)
            currentPlayer.hand with
        | none => (some GameError.cardNotInHand, gs)
        | some cardIndex =>
          let players1 := modifyAt gs.players gs.currentPlayerIndex
            (fun p => { p with hand := p.hand.eraseIdx cardIndex })
          let trick1 := gs.currentTrick ++ [card]
          let trickPlayers1 := gs.currentTrickPlayers ++ [playerId]
          let leadSuit1 := if trick1.length = 1 then some card.suit else gs.leadSuit
          let gs1 := { gs with
            players := players1
            currentTrick := trick1
            currentTrickPlayers := trickPlayers1
            leadSuit := leadSuit1 }
          if trick1.length = players1.length then
            match findTrickWinner trick1 trickPlayers1 gs.trumpSuit leadSuit1 with
            | none => (some GameError.typeError, gs1)
            | some winnerId =>
              match findIndex (fun p => p.id == winnerId) players1 with
              | none => (some GameError.typeError, gs1)
              | some winnerIndex =>
                let players2 := modifyAt players1 winnerIndex
                  (fun p => { p with actualWins := p.actualWins + 1 })
                let gs2 := { gs1 with players := players2, trickWinner := some winnerId }
                match players2.head? with
                | none => (some GameError.typeError, gs2)
                | some firstSeat =>
                  if firstSeat.hand.length = 0 then
                    (none, calculateRoundScores { gs2 with phase := Phase.roundEnd })
                  else
                    (none, { gs2 with
                      currentPlayerIndex := winnerIndex
                      currentTrick := []
                      currentTrickPlayers := []
                      leadSuit := none
                      trickWinner := none })
          else
            (none, { gs1 with
              currentPlayerIndex := (gs.currentPlayerIndex + 1) % players1.length })

/-- `GameManager.dealCards`: an explicit placeholder in the source that
only sets the phase to bidding. -/
def dealCards (gs : GameState) : GameState :=
  { gs with phase := Phase.bidding }

/-- `GameManager.processNextRound`: requires the round-end phase, appends
the round history entries, advances the round counter, and either ends
the game or resets seats for the next round and re-deals (the placeholder
`dealCards`).  Note the source does not clear the current trick here. -/
def processNextRound (gs : GameState) : Option GameError × GameState :=
  if gs.phase ≠ Phase.roundEnd then (some GameError.notRoundEnd, gs)
  else
    let entry := gs.players.map (fun player =>
      { round := gs.currentRound
        cardsInRound := gs.cardsPerRound
        bid := player.bid.getD 0
        actualWins := player.actualWins
        roundScore := calculateScore (player.bid.getD 0) player.actualWins : RoundRecord })
    if gs.totalRounds ≤ gs.currentRound + 1 then
      (none, { gs with
        roundHistory := gs.roundHistory ++ [entry]
        currentRound := gs.currentRound + 1
        phase := Phase.gameEnd })
    else
      (none, dealCards
        { gs with
          roundHistory := gs.roundHistory ++ [entry]
          currentRound := gs.currentRound + 1
          cardsPerRound := gs.roundSequence.getD (gs.currentRound + 1) 0
          phase := Phase.setup
          players := gs.players.map (fun player =>
            { player with hand := [], bid := none, actualWins := 0 }) })

/-- `GameManager.determineWinner`: JS `reduce` without an initial value,
keeping the accumulator unless a seat has a strictly greater total score;
throws on an empty seats array (`none` here). -/
def determineWinner (gs : GameState) : Option GamePlayer :=
  match gs.players with
  | [] => none
  | p :: ps => some (ps.foldl (fun winner player =>
      if player.totalScore > winner.totalScore then player else winner) p)

/-- `RoomManager.leaveRoom` at the level of one room: removes the member,
then, when the departing member was host and members remain, promotes the
first remaining member (JS Map insertion order) to host; returns `none`
where the JS code returns false (member not found). -/
def leaveRoom (room : Room) (playerId : Nat) (now : Nat) : Option Room :=
  match room.players.find? (fun m => m.id == playerId) with
  | none => none
  | some player =>
    let remaining := room.players.filter (fun m => m.id ≠ playerId)
    let room1 := { room with players := remaining, lastActivity := now }
    if player.isHost then
      match remaining with
      | [] => some room1
      | newHost :: rest =>
        some { room1 with
          players := { newHost with isHost := true } :: rest
          hostId := newHost.id }
    else
      some room1

/-- `RoomManager.endGame` at the level of one room: marks the room
finished, merges the results into the game data, refreshes the activity
timestamp and resets every member's ready flag. -/
def endGame (room : Room) (results : GameResults) (now : Nat) : Room :=
  { room with
    gameState := RoomState.finished
    gameResults := some results
    lastActivity := now
    players := room.players.map (fun player => { player with isReady := false }) }

/-- C10: ending the game on a room sets its lifecycle tag to finished and
resets every remaining member's ready flag to false, while leaving the
membership list, each member's host flag, and the stored host id
unchanged (each member changes only in its `isReady` field). -/
theorem endGame_frame (room : Room) (results : GameResults) (now : Nat) :
    (endGame room results now).gameState = RoomState.finished
    ∧ (∀ m ∈ (endGame room results now).players, m.isReady = false)
    ∧ (endGame room results now).players
        = room.players.map (fun m => { m with isReady := false })
    ∧ (endGame room results now).hostId = room.hostId := by
  refine ⟨rfl, ?_, rfl, rfl⟩
  intro m hm
  simp only [endGame, List.mem_map] at hm
  obtain ⟨a, _, rfl⟩ := hm
  rfl

/-- C6: at round end, the score added to a seat with recorded bid b is
10 + actualWins when b equals the tricks won and 0 otherwise, and no
other seat field changes. -/
theorem calculateRoundScores_spec (gs : GameState) (i : Nat) (p : GamePlayer) (b : Int)
    (hp : gs.players.get? i = some p) (hb : p.bid = some b) :
    (calculateRoundScores gs).players.get? i
      = some { p with totalScore :=
          p.totalScore + (if b = (p.actualWins : Int) then 10 + p.actualWins else 0) } := by
  have h1 : (calculateRoundScores gs).players = gs.players.map (fun player =>
      { player with totalScore :=
          player.totalScore + calculateScore (player.bid.getD 0) player.actualWins }) := rfl
  rw [h1, List.get?_map, hp]
  simp only [Option.map_some', hb, Option.getD_some, calculateScore]

/-- Seat used by the C6 witness: bid 3, 3 tricks won. -/
def exactBidSeat : GamePlayer :=
  { id := 0, name := "a", isHuman := true, hand := [], bid := some 3,
    actualWins := 3, totalScore := 0, isConnected := true }

/-- Seat used by the C6 witness: bid 3, 2 tricks won. -/
def missedBidSeat : GamePlayer :=
  { id := 1, name := "b", isHuman := true, hand := [], bid := some 3,
    actualWins := 2, totalScore := 0, isConnected := true }

/-- Round-end state used by the C6 witness. -/
def roundEndState : GameState :=
  { players := [exactBidSeat, missedBidSeat]
    currentRound := 0
    totalRounds := 9
    cardsPerRound := 5
    trumpSuit := some Suit.clubs
    trumpCard := none
    phase := Phase.roundEnd
    currentPlayerIndex := 0
    dealer := 0
    currentTrick := []
    currentTrickPlayers := []
    leadSuit := none
    trickWinner := none
    roundSequence := [5, 4, 3, 2, 1, 2, 3, 4, 5]
    deck := []
    roundHistory := [] }

/-- Witness for C6: bid 3 with 3 tricks scores 13, bid 3 with 2 tricks
scores 0. -/
theorem calculateRoundScores_spec_witness :
    (roundEndState.players.get? 0 = some exactBidSeat
      ∧ exactBidSeat.bid = some 3
      ∧ (calculateRoundScores roundEndState).players.get? 0
          = some { exactBidSeat with totalScore :=
              exactBidSeat.totalScore
                + (if (3 : Int) = (exactBidSeat.actualWins : Int)
                   then 10 + exactBidSeat.actualWins else 0) })
    ∧ (roundEndState.players.get? 1 = some missedBidSeat
      ∧ missedBidSeat.bid = some 3
      ∧ (calculateRoundScores roundEndState).players.get? 1
          = some { missedBidSeat with totalScore :=
              missedBidSeat.totalScore
                + (if (3 : Int) = (missedBidSeat.actualWins : Int)
                   then 10 + missedBidSeat.actualWins else 0) }) :=
  ⟨⟨rfl, rfl, calculateRoundScores_spec roundEndState 0 exactBidSeat 3 rfl rfl⟩,
   ⟨rfl, rfl, calculateRoundScores_spec roundEndState 1 missedBidSeat 3 rfl rfl⟩⟩

/-- Trick used by the C1 counter-evidence: seat 0 leads the ace of
hearts, seat 1 answers with the two of spades, and spades are trump. -/
def trumpedTrick : List Card :=
  [{ suit := Suit.hearts, rank := Rank.ace }, { suit := Suit.spades, rank := Rank.two }]

/-- Acting seats of `trumpedTrick`, in play order. -/
def trumpedTrickSeats : List Nat := [0, 1]

/-- C1 is contradicted by the code: on a completed trick where seat 1
played the only trump card, `findTrickWinner` (an explicit placeholder in
the source) still returns the first acting seat 0, while the documented
rule (trump beats all, custom ranking) names seat 1. -/
theorem findTrickWinner_placeholder_bug :
    findTrickWinner trumpedTrick trumpedTrickSeats (some Suit.spades) (some Suit.hearts)
      = some 0
    ∧ specTrickWinner trumpedTrick trumpedTrickSeats (some Suit.spades) (some Suit.hearts)
      = some 1 := by
  exact ⟨rfl, rfl⟩

/-- Acting seat for the C2 counter-evidence: holds a heart (the lead
suit) and a spade. -/
def offSuitSeat : GamePlayer :=
  { id := 0, name := "a", isHuman := true,
    hand := [{ suit := Suit.hearts, rank := Rank.five },
             { suit := Suit.spades, rank := Rank.two }],
    bid := some 1, actualWins := 0, totalScore := 0, isConnected := true }

/-- Seat that led the current trick with a heart in the C2 scenario. -/
def leaderSeat : GamePlayer :=
  { id := 1, name := "b", isHuman := true,
    hand := [{ suit := Suit.clubs, rank := Rank.three }],
    bid := some 1, actualWins := 0, totalScore := 0, isConnected := true }

/-- Playing-phase state for the C2 counter-evidence: seat 1 led the king
of hearts, so the lead suit is hearts and it is seat 0's turn. -/
def followSuitState : GameState :=
  { players := [offSuitSeat, leaderSeat]
    currentRound := 0
    totalRounds := 3
    cardsPerRound := 2
    trumpSuit := some Suit.clubs
    trumpCard := none
    phase := Phase.playing
    currentPlayerIndex := 0
    dealer := 0
    currentTrick := [{ suit := Suit.hearts, rank := Rank.king }]
    currentTrickPlayers := [1]
    leadSuit := some Suit.hearts
    trickWinner := none
    roundSequence := [2, 1, 2]
    deck := []
    roundHistory := [] }

/-- The off-suit card seat 0 plays in the C2 scenario. -/
def offSuitCard : Card := { suit := Suit.spades, rank := Rank.two }

/-- C2 is contradicted by the code: `processCardPlay` performs no
follow-suit check, so the acting seat plays a spade while holding a card
of the heart lead suit and the request is accepted (no error) instead of
being rejected. -/
theorem processCardPlay_followSuit_bug :
    followSuitState.leadSuit = some Suit.hearts
    ∧ followSuitState.players.get? followSuitState.currentPlayerIndex = some offSuitSeat
    ∧ ({ suit := Suit.hearts, rank := Rank.five } : Card) ∈ offSuitSeat.hand
    ∧ offSuitCard.suit = Suit.spades
    ∧ offSuitCard ∈ offSuitSeat.hand
    ∧ (processCardPlay followSuitState 0 offSuitCard).1 = none := by
  refine ⟨rfl, ?_, ?_, rfl, ?_, ?_⟩ <;> decide

/-- Bidding-phase state for the C3 counter-evidence: no seat has bid and
the turn index points at seat 0. -/
def freshBiddingState : GameState :=
  { players :=
      [{ id := 0, name := "a", isHuman := true, hand := [], bid := none,
         actualWins := 0, totalScore := 0, isConnected := true },
       { id := 1, name := "b", isHuman := true, hand := [], bid := none,
         actualWins := 0, totalScore := 0, isConnected := true }]
    currentRound := 0
    totalRounds := 9
    cardsPerRound := 5
    trumpSuit := some Suit.clubs
    trumpCard := none
    phase := Phase.bidding
    currentPlayerIndex := 0
    dealer := 0
    currentTrick := []
    currentTrickPlayers := []
    leadSuit := none
    trickWinner := none
    roundSequence := [5, 4, 3, 2, 1, 2, 3, 4, 5]
    deck := []
    roundHistory := [] }

/-- C3 is contradicted by the code: `processBid` has no turn check, so a
bid by seat 1 while the turn index points at seat 0 is accepted and
recorded instead of failing NotYourTurn. -/
theorem processBid_turnOrder_bug :
    freshBiddingState.currentPlayerIndex = 0
    ∧ (freshBiddingState.players.get? 0).map (fun p => p.id) = some 0
    ∧ (processBid freshBiddingState 1 2).1 = none
    ∧ ((processBid freshBiddingState 1 2).2.players.get? 1).map (fun p => p.bid)
        = some (some 2) := by
  refine ⟨rfl, rfl, ?_, ?_⟩ <;> decide

/-- Bidding-phase state for the C4 counter-evidence: seat 0 has already
bid, seat 1 (the current turn) is about to place the final bid, and the
dealer is seat 0. -/
def lastBidState : GameState :=
  { players :=
      [{ id := 0, name := "a", isHuman := true, hand := [], bid := some 2,
         actualWins := 0, totalScore := 0, isConnected := true },
       { id := 1, name := "b", isHuman := true, hand := [], bid := none,
         actualWins := 0, totalScore := 0, isConnected := true }]
    currentRound := 0
    totalRounds := 9
    cardsPerRound := 5
    trumpSuit := some Suit.clubs
    trumpCard := none
    phase := Phase.bidding
    currentPlayerIndex := 1
    dealer := 0
    currentTrick := []
    currentTrickPlayers := []
    leadSuit := none
    trickWinner := none
    roundSequence := [5, 4, 3, 2, 1, 2, 3, 4, 5]
    deck := []
    roundHistory := [] }

/-- C4 is contradicted by the code: when the final bid completes the
bidding phase, `processBid` sets the turn index to 0 (the first seat),
not to the seat after the dealer, which here is seat (0 + 1) % 2 = 1. -/
theorem processBid_completionTurn_bug :
    lastBidState.dealer = 0
    ∧ lastBidState.players.length = 2
    ∧ (lastBidState.dealer + 1) % lastBidState.players.length = 1
    ∧ (processBid lastBidState 1 3).1 = none
    ∧ (processBid lastBidState 1 3).2.phase = Phase.playing
    ∧ (processBid lastBidState 1 3).2.currentPlayerIndex = 0 := by
  refine ⟨rfl, rfl, rfl, ?_, ?_, ?_⟩ <;> decide

/-- The JS `reduce` body of `determineWinner` keeps the accumulator
unless a seat scores strictly higher, so the fold returns the first seat
attaining the maximal total score: the list splits around the result,
everything before it scores strictly less and everything after it scores
at most as much. -/
theorem foldl_firstMax (p : GamePlayer) (ps : List GamePlayer) :
    ∃ l₁ l₂,
      p :: ps = l₁ ++ (ps.foldl (fun winner player =>
          if player.totalScore > winner.totalScore then player else winner) p) :: l₂
      ∧ (∀ q ∈ l₁, q.totalScore < (ps.foldl (fun winner player =>
          if player.totalScore > winner.totalScore then player else winner) p).totalScore)
      ∧ (∀ q ∈ l₂, q.totalScore ≤ (ps.foldl (fun winner player =>
          if player.totalScore > winner.totalScore then player else winner) p).totalScore) := by
  induction ps generalizing p with
  | nil => exact ⟨[], [], rfl, by simp, by simp⟩
  | cons q ps ih =>
    simp only [List.foldl_cons]
    by_cases hq : q.totalScore > p.totalScore
    · rw [if_pos hq]
      obtain ⟨l₁, l₂, heq, hlt, hle⟩ := ih q
      have hall : ∀ x ∈ q :: ps, x.totalScore ≤ (ps.foldl (fun winner player =>
          if player.totalScore > winner.totalScore then player else winner) q).totalScore := by
        rw [heq]
        intro x hx
        rcases List.mem_append.mp hx with hx1 | hx2
        · exact le_of_lt (hlt x hx1)
        · rcases List.mem_cons.mp hx2 with rfl | hx3
          · exact le_refl _
          · exact hle x hx3
      refine ⟨p :: l₁, l₂, ?_, ?_, hle⟩
      · rw [List.cons_append, ← heq]
      · intro r hr
        rcases List.mem_cons.mp hr with rfl | hr2
        · exact lt_of_lt_of_le hq (hall q (List.mem_cons_self q ps))
        · exact hlt r hr2
    · rw [if_neg hq]
      obtain ⟨l₁, l₂, heq, hlt, hle⟩ := ih p
      cases l₁ with
      | nil =>
        simp only [List.nil_append] at heq
        have h1 := (List.cons.injEq _ _ _ _).mp heq
        refine ⟨[], q :: l₂, ?_, by simp, ?_⟩
        · simp only [List.nil_append, ← h1.1, ← h1.2]
        · intro x hx
          rcases List.mem_cons.mp hx with rfl | hx2
          · rw [← h1.1]; omega
          · exact hle x hx2
      | cons a l₁ =>
        simp only [List.cons_append] at heq
        have h1 := (List.cons.injEq _ _ _ _).mp heq
        have hpa : p = a := h1.1
        refine ⟨p :: q :: l₁, l₂, ?_, ?_, hle⟩
        · rw [List.cons_append, List.cons_append]
          conv_lhs => rw [h1.2]
        · intro x hx
          have hpmem : a ∈ a :: l₁ := List.mem_cons_self a l₁
          have hpr : p.totalScore < (ps.foldl (fun winner player =>
              if player.totalScore > winner.totalScore then player else winner)
              p).totalScore := by
            have h2 := hlt a hpmem
            rw [← hpa] at h2
            exact h2
          rcases List.mem_cons.mp hx with rfl | hx2
          · exact hpr
          · rcases List.mem_cons.mp hx2 with rfl | hx3
            · omega
            · exact hlt x (List.mem_cons_of_mem a hx3)

/-- C9: on a nonempty seat list, the declared game winner is a seat with
maximal cumulative score, and among seats tied at the maximum the one
with the earliest seat index: the seat list splits as l₁ ++ winner :: l₂
where every seat in l₁ scores strictly less and every seat in l₂ scores
no more. -/
theorem determineWinner_spec (gs : GameState) (p : GamePlayer) (ps : List GamePlayer)
    (h : gs.players = p :: ps) :
    ∃ w l₁ l₂, determineWinner gs = some w
      ∧ gs.players = l₁ ++ w :: l₂
      ∧ (∀ q ∈ l₁, q.totalScore < w.totalScore)
      ∧ (∀ q ∈ l₂, q.totalScore ≤ w.totalScore) := by
  obtain ⟨l₁, l₂, heq, hlt, hle⟩ := foldl_firstMax p ps
  refine ⟨_, l₁, l₂, ?_, ?_, hlt, hle⟩
  · unfold determineWinner
    rw [h]
  · rw [h]
    exact heq

/-- Seat with the lower score in the C9 witness. -/
def seatLow : GamePlayer :=
  { id := 0, name := "a", isHuman := true, hand := [], bid := some 0,
    actualWins := 0, totalScore := 5, isConnected := true }

/-- First of the two seats tied at the maximal score in the C9 witness. -/
def seatHighFirst : GamePlayer :=
  { id := 1, name := "b", isHuman := true, hand := [], bid := some 0,
    actualWins := 0, totalScore := 7, isConnected := true }

/-- Second of the two seats tied at the maximal score in the C9 witness. -/
def seatHighSecond : GamePlayer :=
  { id := 2, name := "c", isHuman := true, hand := [], bid := some 0,
    actualWins := 0, totalScore := 7, isConnected := true }

/-- Game-end state used by the C9 witness: scores 5, 7, 7. -/
def finalScoresState : GameState :=
  { players := [seatLow, seatHighFirst, seatHighSecond]
    currentRound := 9
    totalRounds := 9
    cardsPerRound := 5
    trumpSuit := none
    trumpCard := none
    phase := Phase.gameEnd
    currentPlayerIndex := 0
    dealer := 0
    currentTrick := []
    currentTrickPlayers := []
    leadSuit := none
    trickWinner := none
    roundSequence := [5, 4, 3, 2, 1, 2, 3, 4, 5]
    deck := []
    roundHistory := [] }

/-- Witness for C9 on scores 5, 7, 7: the winner is the earliest seat
among the two tied at 7. -/
theorem determineWinner_spec_witness :
    finalScoresState.players = seatLow :: [seatHighFirst, seatHighSecond]
    ∧ ∃ w l₁ l₂, determineWinner finalScoresState = some w
        ∧ finalScoresState.players = l₁ ++ w :: l₂
        ∧ (∀ q ∈ l₁, q.totalScore < w.totalScore)
        ∧ (∀ q ∈ l₂, q.totalScore ≤ w.totalScore) :=
  ⟨rfl, determineWinner_spec finalScoresState seatLow [seatHighFirst, seatHighSecond] rfl⟩

theorem findIndex_eq_none_forall (p : α → Bool) (l : List α)
    (h : findIndex p l = none) : ∀ a ∈ l, p a = false := by
  induction l with
  | nil => intro a ha; cases ha
  | cons x l ih =>
    intro a ha
    rw [findIndex] at h
    by_cases hx : p x
    · rw [if_pos hx] at h
      simp at h
    · rw [if_neg hx] at h
      have h2 : findIndex p l = none := by
        cases hfl : findIndex p l with
        | none => rfl
        | some k => rw [hfl] at h; simp at h
      rcases List.mem_cons.mp ha with rfl | ha2
      · exact Bool.eq_false_iff.mpr hx
      · exact ih h2 a ha2

theorem modifyAt_length (l : List α) (i : Nat) (f : α → α) :
    (modifyAt l i f).length = l.length := by
  induction l generalizing i with
  | nil => rfl
  | cons a t ih =>
    cases i with
    | zero => rfl
    | succ i => simp [modifyAt, ih]

theorem modifyAt_map_eq (l : List α) (i : Nat) (f : α → α) (g : α → β)
    (hg : ∀ a, g (f a) = g a) : (modifyAt l i f).map g = l.map g := by
  induction l generalizing i with
  | nil => rfl
  | cons a t ih =>
    cases i with
    | zero => simp [modifyAt, hg]
    | succ i => simp [modifyAt, ih]

theorem head?_append_singleton (l : List α) (a : α) :
    ((l ++ [a]).head?).isSome = true := by
  cases l <;> rfl

theorem mem_of_get? {l : List α} {n : Nat} {a : α} (h : l.get? n = some a) :
    a ∈ l := by
  induction l generalizing n with
  | nil => simp at h
  | cons x t ih =>
    cases n with
    | zero =>
      injection h with h1
      rw [← h1]
      exact List.mem_cons_self x t
    | succ n => exact List.mem_cons_of_mem x (ih h)

theorem eq_nil_of_head?_eq_none {l : List α} (h : l.head? = none) : l = [] := by
  cases l with
  | nil => rfl
  | cons a t => simp at h

/-- C5: every rejected game action leaves the entire game state
unchanged — all validation precedes any mutation.  For `processBid` and
`processNextRound` this is unconditional; for `processCardPlay` it holds
whenever every id recorded in the current trick belongs to a seat of the
game, an invariant the code maintains since only the current-turn seat's
id is ever appended.  In particular a bid outside [0, cardsPerRound]
leaves every seat's bid, hand, and score exactly as before. -/
theorem rejected_actions_unchanged :
    (∀ gs playerId bid e gs2,
        processBid gs playerId bid = (some e, gs2) → gs2 = gs)
    ∧ (∀ gs e gs2,
        processNextRound gs = (some e, gs2) → gs2 = gs)
    ∧ (∀ gs playerId card e gs2,
        (∀ q ∈ gs.currentTrickPlayers, ∃ pl ∈ gs.players, pl.id = q) →
        processCardPlay gs playerId card = (some e, gs2) → gs2 = gs) := by
  refine ⟨?_, ?_, ?_⟩
  · intro gs playerId bid e gs2 h
    unfold processBid at h
    split at h
    · exact (congrArg Prod.snd h).symm
    · split at h
      · exact (congrArg Prod.snd h).symm
      · split at h
        · exact (congrArg Prod.snd h).symm
        · split at h
          · exact (congrArg Prod.snd h).symm
          · dsimp only at h
            split at h <;> simp at h
  · intro gs e gs2 h
    unfold processNextRound at h
    split at h
    · exact (congrArg Prod.snd h).symm
    · dsimp only at h
      split at h <;> simp at h
  · intro gs playerId card e gs2 hInv h
    unfold processCardPlay at h
    split at h
    · exact (congrArg Prod.snd h).symm
    · split at h
      · exact (congrArg Prod.snd h).symm
      · rename_i currentPlayer hcur
        split at h
        · exact (congrArg Prod.snd h).symm
        · rename_i hturn
          split at h
          · exact (congrArg Prod.snd h).symm
          · rename_i cardIndex hcard
            dsimp only at h
            split at h
            · rename_i hfull
              split at h
              · rename_i hw
                exfalso
                rw [findTrickWinner] at hw
                have hs := head?_append_singleton gs.currentTrickPlayers playerId
                rw [hw] at hs
                simp at hs
              · rename_i winnerId hw
                split at h
                · rename_i hfi
                  exfalso
                  rw [findTrickWinner] at hw
                  have hmem : ∃ pl ∈ gs.players, pl.id = winnerId := by
                    cases htp : gs.currentTrickPlayers with
                    | nil =>
                      rw [htp] at hw
                      simp at hw
                      have hpid : currentPlayer.id = playerId := by
                        by_contra hne
                        exact hturn hne
                      exact ⟨currentPlayer, mem_of_get? hcur, by rw [hpid, hw]⟩
                    | cons q rest =>
                      rw [htp] at hw
                      simp at hw
                      obtain ⟨pl, hpl, hpleq⟩ := hInv q (by rw [htp]; exact List.mem_cons_self q rest)
                      exact ⟨pl, hpl, by rw [hpleq, hw]⟩
                  obtain ⟨pl, hpl, hpleq⟩ := hmem
                  have hmem1 : winnerId ∈ (modifyAt gs.players gs.currentPlayerIndex
                      (fun p => { p with hand := p.hand.eraseIdx cardIndex })).map
                        (fun p => p.id) := by
                    rw [modifyAt_map_eq gs.players gs.currentPlayerIndex
                      (fun p => { p with hand := p.hand.eraseIdx cardIndex })
                      (fun p => p.id) (fun a => rfl)]
                    exact List.mem_map.mpr ⟨pl, hpl, hpleq⟩
                  obtain ⟨a, ha, haeq⟩ := List.mem_map.mp hmem1
                  have := findIndex_eq_none_forall _ _ hfi a ha
                  rw [haeq] at this
                  simp at this
                · rename_i winnerIndex hfi
                  split at h
                  · rename_i hh
                    exfalso
                    have hnil := eq_nil_of_head?_eq_none hh
                    have hlen := congrArg List.length hnil
                    rw [modifyAt_length, modifyAt_length, List.length_nil] at hlen
                    have hmem := mem_of_get? hcur
                    have hne := List.ne_nil_of_mem hmem
                    have hpos := List.length_pos.mpr hne
                    omega
                  · split at h <;> simp at h
            · simp at h

/-- Witness for C5: a bid of 7 with 5 cards per round is rejected and
leaves the state unchanged; advancing the round outside the round-end
phase is rejected and leaves the state unchanged; an out-of-turn card
play is rejected and leaves the state unchanged. -/
theorem rejected_actions_unchanged_witness :
    (processBid freshBiddingState 0 7
        = (some GameError.invalidBidAmount, freshBiddingState)
      ∧ freshBiddingState = freshBiddingState)
    ∧ (processNextRound freshBiddingState
        = (some GameError.notRoundEnd, freshBiddingState)
      ∧ freshBiddingState = freshBiddingState)
    ∧ ((∀ q ∈ followSuitState.currentTrickPlayers,
          ∃ pl ∈ followSuitState.players, pl.id = q)
      ∧ processCardPlay followSuitState 1 offSuitCard
          = (some GameError.notYourTurn, followSuitState)
      ∧ followSuitState = followSuitState) :=
  ⟨⟨by decide, rejected_actions_unchanged.1 freshBiddingState 0 7
      GameError.invalidBidAmount freshBiddingState (by decide)⟩,
   ⟨by decide, rejected_actions_unchanged.2.1 freshBiddingState
      GameError.notRoundEnd freshBiddingState (by decide)⟩,
   ⟨by decide, by decide,
    rejected_actions_unchanged.2.2 followSuitState 1 offSuitCard
      GameError.notYourTurn followSuitState (by decide) (by decide)⟩⟩

/-- C8: when the host leaves a room in which members joined at strictly
increasing times, each member's host flag agrees with the stored host id,
and at least one other member remains, then after the leave exactly one
remaining member has the host flag, that member joined strictly earlier
than every other remaining member (JS Map iteration preserves insertion
order, so the first remaining entry is the earliest-joined), and the
remaining membership is exactly the original membership minus the
departing player. -/
theorem leaveRoom_hostPromotion (room : Room) (playerId : Nat) (now : Nat) (r2 : Room)
    (hsorted : room.players.Pairwise (fun a b => a.joinedAt < b.joinedAt))
    (hinv : ∀ m ∈ room.players, m.isHost = true ↔ m.id = room.hostId)
    (hhost : playerId = room.hostId)
    (hrem : ∃ m ∈ room.players, m.id ≠ playerId)
    (hres : leaveRoom room playerId now = some r2) :
    r2.players.countP (fun m => m.isHost) = 1
    ∧ (∀ m ∈ r2.players, m.isHost = true →
        ∀ m2 ∈ r2.players, m2.id ≠ m.id → m.joinedAt < m2.joinedAt)
    ∧ r2.players.map (fun m => m.id)
        = (room.players.filter (fun m => m.id ≠ playerId)).map (fun m => m.id) := by
  unfold leaveRoom at hres
  split at hres
  · simp at hres
  · rename_i player hfind
    have hplayerPred := List.find?_some hfind
    have hplayerMem := List.mem_of_find?_eq_some hfind
    have hplayerId : player.id = playerId := by simpa using hplayerPred
    have hplayerHost : player.isHost = true :=
      (hinv player hplayerMem).mpr (by rw [hplayerId, hhost])
    dsimp only at hres
    rw [if_pos hplayerHost] at hres
    split at hres
    · rename_i hnil
      exfalso
      obtain ⟨m, hm, hne⟩ := hrem
      have hmf : m ∈ room.players.filter (fun m => m.id ≠ playerId) :=
        List.mem_filter.mpr ⟨hm, by simpa using hne⟩
      rw [hnil] at hmf
      cases hmf
    · rename_i newHost rest hcons
      have hres2 := Option.some.inj hres
      subst hres2
      have hrestFacts : ∀ m ∈ rest, m ∈ room.players ∧ m.id ≠ playerId := by
        intro m hm
        have hmf : m ∈ room.players.filter (fun m => m.id ≠ playerId) := by
          rw [hcons]
          exact List.mem_cons_of_mem newHost hm
        have := List.mem_filter.mp hmf
        exact ⟨this.1, by simpa using this.2⟩
      have hrestNotHost : ∀ m ∈ rest, m.isHost = false := by
        intro m hm
        obtain ⟨hmem, hne⟩ := hrestFacts m hm
        by_contra hcontra
        have hm2 : m.isHost = true := by
          cases hb : m.isHost with
          | true => rfl
          | false => rw [hb] at hcontra; exact absurd rfl hcontra
        have := (hinv m hmem).mp hm2
        rw [← hhost] at this
        exact hne this
      have hsorted2 : (room.players.filter (fun m => m.id ≠ playerId)).Pairwise
          (fun a b => a.joinedAt < b.joinedAt) :=
        List.Pairwise.sublist (List.filter_sublist room.players) hsorted
      rw [hcons] at hsorted2
      have hheadLt : ∀ m ∈ rest, newHost.joinedAt < m.joinedAt :=
        (List.pairwise_cons.mp hsorted2).1
      refine ⟨?_, ?_, ?_⟩
      · rw [List.countP_cons]
        have hz : rest.countP (fun m => m.isHost) = 0 := by
          rw [List.countP_eq_zero]
          intro m hm
          simp [hrestNotHost m hm]
        simp [hz]
      · intro m hm hmh m2 hm2 hne2
        rcases List.mem_cons.mp hm with rfl | hmrest
        · rcases List.mem_cons.mp hm2 with rfl | hm2rest
          · exact absurd rfl hne2
          · exact hheadLt m2 hm2rest
        · exact absurd hmh (by simp [hrestNotHost m hmrest])
      · rw [hcons]
        rfl

/-- Host member for the C8 witness room. -/
def hostMember : Member :=
  { id := 1, name := "h", isHost := true, isReady := false, isConnected := true,
    joinedAt := 10, socketId := 100 }

/-- Member who joined second in the C8 witness room. -/
def secondMember : Member :=
  { id := 2, name := "x", isHost := false, isReady := true, isConnected := true,
    joinedAt := 20, socketId := 101 }

/-- Member who joined third in the C8 witness room. -/
def thirdMember : Member :=
  { id := 3, name := "y", isHost := false, isReady := true, isConnected := true,
    joinedAt := 30, socketId := 102 }

/-- Three-member room for the C8 witness; the host joined first. -/
def hostedRoom : Room :=
  { code := "ABCD", hostId := 1, players := [hostMember, secondMember, thirdMember],
    maxPlayers := 8, gameState := RoomState.waiting, gameData := none,
    gameResults := none, createdAt := 5, lastActivity := 5,
    settings := { gameLength := 10, language := "en", autoStart := false } }

/-- Expected room after the host leaves `hostedRoom`: the second-joined
member is promoted. -/
def promotedRoom : Room :=
  { code := "ABCD", hostId := 2,
    players := [{ secondMember with isHost := true }, thirdMember],
    maxPlayers := 8, gameState := RoomState.waiting, gameData := none,
    gameResults := none, createdAt := 5, lastActivity := 50,
    settings := { gameLength := 10, language := "en", autoStart := false } }

/-- Witness for C8: the host of a three-member room leaves; exactly one
member of the result is host and it joined strictly earlier than every
other remaining member. -/
theorem leaveRoom_hostPromotion_witness :
    (hostedRoom.players.Pairwise (fun a b => a.joinedAt < b.joinedAt)
      ∧ (∀ m ∈ hostedRoom.players, m.isHost = true ↔ m.id = hostedRoom.hostId)
      ∧ (1 : Nat) = hostedRoom.hostId
      ∧ (∃ m ∈ hostedRoom.players, m.id ≠ 1)
      ∧ leaveRoom hostedRoom 1 50 = some promotedRoom)
    ∧ (promotedRoom.players.countP (fun m => m.isHost) = 1
      ∧ (∀ m ∈ promotedRoom.players, m.isHost = true →
          ∀ m2 ∈ promotedRoom.players, m2.id ≠ m.id → m.joinedAt < m2.joinedAt)
      ∧ promotedRoom.players.map (fun m => m.id)
          = (hostedRoom.players.filter (fun m => m.id ≠ 1)).map (fun m => m.id)) := by
  constructor
  · refine ⟨?_, ?_, ?_, ?_, ?_⟩ <;> decide
  · exact leaveRoom_hostPromotion hostedRoom 1 50 promotedRoom
      (by decide) (by decide) (by decide) (by decide) (by decide)
